import Mathlib

/-!
Verification of the transactional cursor protocol bindings in
`rust-src/bch_bindgen/src/btree.rs` (bcachefs-tools).

The binding layer wraps an opaque B-tree storage engine.  The wrapper code
(`BtreeTrans`, `BtreeIter`, `BtreeNodeIter`, result mapping, flag forwarding)
is embedded directly from the Rust source.  The engine primitives it calls
(`bch2_btree_iter_peek_upto`, `bch2_btree_iter_advance`,
`bch2_btree_iter_next_node`, ...) live in the C part of the repository and are
modelled from the spec at the interface boundary described in its section 6.
-/

namespace BchBtree

/-- `bpos`: the composite ordering key (inode, offset, snapshot) of the
keyspace.  Fields are unsigned machine integers in the engine (u64, u64, u32),
modelled as `Nat` with explicit bounds in `validBpos`. -/
structure Bpos where
  inode : Nat
  offset : Nat
  snapshot : Nat
deriving DecidableEq, Repr

/-- Maximum value of a u64 field of `bpos`. -/
def U64_MAX : Nat := 2 ^ 64 - 1

/-- Maximum value of the u32 snapshot field of `bpos`. -/
def U32_MAX : Nat := 2 ^ 32 - 1

/-- `SPOS_MAX`: the engine's sentinel maximum position, all fields maximal. -/
def SPOS_MAX : Bpos := ⟨U64_MAX, U64_MAX, U32_MAX⟩

/-- A `bpos` whose fields are within the engine's machine-integer bounds. -/
def validBpos (p : Bpos) : Prop :=
  p.inode ≤ U64_MAX ∧ p.offset ≤ U64_MAX ∧ p.snapshot ≤ U32_MAX

instance (p : Bpos) : Decidable (validBpos p) := by
  unfold validBpos; infer_instance

/-- Strict lexicographic order on positions (`bpos_cmp`: inode, then offset,
then snapshot). -/
def Bpos.lt (a b : Bpos) : Prop :=
  a.inode < b.inode ∨
    (a.inode = b.inode ∧
      (a.offset < b.offset ∨ (a.offset = b.offset ∧ a.snapshot < b.snapshot)))

instance (a b : Bpos) : Decidable (Bpos.lt a b) := by
  unfold Bpos.lt; infer_instance

/-- Reflexive lexicographic order on positions. -/
def Bpos.le (a b : Bpos) : Prop :=
  a.inode < b.inode ∨
    (a.inode = b.inode ∧
      (a.offset < b.offset ∨ (a.offset = b.offset ∧ a.snapshot ≤ b.snapshot)))

instance (a b : Bpos) : Decidable (Bpos.le a b) := by
  unfold Bpos.le; infer_instance

/-- `bpos_successor`: the least position strictly greater than `p`
(increment snapshot with carry into offset and inode); the sentinel
`SPOS_MAX` is its own successor. -/
def Bpos.successor (p : Bpos) : Bpos :=
  if p.snapshot < U32_MAX then ⟨p.inode, p.offset, p.snapshot + 1⟩
  else if p.offset < U64_MAX then ⟨p.inode, p.offset + 1, 0⟩
  else if p.inode < U64_MAX then ⟨p.inode + 1, 0, 0⟩
  else p

/-- Modelled from the spec: `bch_errcode` (crate module `errcode`, not under
src/) is the closed error type at the language boundary, enumerating the
engine's named conflict and fatal conditions — lock-contention
restart-needed distinct from unrecoverable/fatal conditions. -/
inductive bch_errcode where
  | transaction_restart
  | resource_exhaustion
  | fatal (kind : Nat)
deriving DecidableEq, Repr

/-- An engine-returned pointer: null (no key/node matched), a valid pointer to
a result, or an error pointer encoding a `bch_errcode`. -/
inductive EnginePtr (α : Type) where
  | null
  | valid (a : α)
  | err (e : bch_errcode)
deriving DecidableEq, Repr

/-- Modelled from the spec: `errptr_to_result_c` (crate module `errcode`, not
under src/) maps an engine-returned pointer to `Err(code)` when the pointer
encodes an error, and to `Ok(pointer)` otherwise. -/
def errptr_to_result_c {α : Type} (p : EnginePtr α) : Except bch_errcode (EnginePtr α) :=
  match p with
  | .err e => .error e
  | q => .ok q

/-- A key/value view (`BkeySC`): one key position with its value payload,
borrowed from the engine.  The payload is opaque at this layer. -/
structure BkeySC where
  p : Bpos
  v : Nat
deriving DecidableEq, Repr

/-- A tree node reference (`c::btree`): opaque node identity at this layer. -/
structure BtreeNode where
  id : Nat
deriving DecidableEq, Repr

/-- The `.map(|_| if !k.k.is_null() { Some(view) } else { None })` step of
`BtreeIter::peek_upto` / `peek_and_restart`: error pointers become `Err`,
null becomes `Ok(None)`, a valid key pointer becomes `Ok(Some(view))`. -/
def toKeyViewResult (r : EnginePtr BkeySC) : Except bch_errcode (Option BkeySC) :=
  (errptr_to_result_c r).map (fun q =>
    match q with
    | .valid kv => some kv
    | _ => none)

/-- The result mapping of `BtreeNodeIter::peek` / `peek_and_restart` /
`next`: error pointers become `Err`, null becomes `Ok(None)`, a valid node
pointer becomes `Ok(Some(node))`. -/
def toNodeViewResult (r : EnginePtr BtreeNode) : Except bch_errcode (Option BtreeNode) :=
  (errptr_to_result_c r).map (fun q =>
    match q with
    | .valid b => some b
    | _ => none)

/-- `BtreeIterFlags`: the u16 bitset of iterator flags (`bitflags!` block). -/
structure BtreeIterFlags where
  bits : Nat
deriving DecidableEq, Repr

/-- Modelled from the spec: the numeric values `c::BTREE_ITER_*` come from the
engine's headers (not under src/); they are distinct single bits of a u16,
here assigned in source declaration order. -/
def BtreeIterFlags.SLOTS : BtreeIterFlags := ⟨1⟩

/-- ALL_LEVELS flag bit. -/
def BtreeIterFlags.ALL_LEVELS : BtreeIterFlags := ⟨2⟩

/-- INTENT flag bit. -/
def BtreeIterFlags.INTENT : BtreeIterFlags := ⟨4⟩

/-- PREFETCH flag bit. -/
def BtreeIterFlags.PREFETCH : BtreeIterFlags := ⟨8⟩

/-- IS_EXTENTS flag bit: keys are range-valued extents. -/
def BtreeIterFlags.IS_EXTENTS : BtreeIterFlags := ⟨16⟩

/-- NOT_EXTENTS flag bit: keys are point keys. -/
def BtreeIterFlags.NOT_EXTENTS : BtreeIterFlags := ⟨32⟩

/-- CACHED flag bit. -/
def BtreeIterFlags.CACHED : BtreeIterFlags := ⟨64⟩

/-- KEY_CACHED flag bit. -/
def BtreeIterFlags.KEY_CACHED : BtreeIterFlags := ⟨128⟩

/-- WITH_UPDATES flag bit. -/
def BtreeIterFlags.WITH_UPDATES : BtreeIterFlags := ⟨256⟩

/-- WITH_JOURNAL flag bit. -/
def BtreeIterFlags.WITH_JOURNAL : BtreeIterFlags := ⟨512⟩

/-- __ALL_SNAPSHOTS flag bit. -/
def BtreeIterFlags.ALL_SNAPSHOTS_INTERNAL : BtreeIterFlags := ⟨1024⟩

/-- ALL_SNAPSHOTS flag bit. -/
def BtreeIterFlags.ALL_SNAPSHOTS : BtreeIterFlags := ⟨2048⟩

/-- FILTER_SNAPSHOTS flag bit. -/
def BtreeIterFlags.FILTER_SNAPSHOTS : BtreeIterFlags := ⟨4096⟩

/-- NOPRESERVE flag bit. -/
def BtreeIterFlags.NOPRESERVE : BtreeIterFlags := ⟨8192⟩

/-- CACHED_NOFILL flag bit. -/
def BtreeIterFlags.CACHED_NOFILL : BtreeIterFlags := ⟨16384⟩

/-- KEY_CACHE_FILL flag bit. -/
def BtreeIterFlags.KEY_CACHE_FILL : BtreeIterFlags := ⟨32768⟩

/-- `BtreeTrans`: the transaction context as visible through this layer.
Modelled from the spec: it carries the engine state cursors observe — the
keys and nodes of the tree being walked, the transaction's restart flag
(set when a conflict is detected), and whether the engine will report a
conflict on the next read (`conflictPending`, modelling concurrent
structural change). -/
structure BtreeTrans where
  keys : List BkeySC
  nodes : List BtreeNode
  restarted : Bool
  conflictPending : Bool
deriving DecidableEq, Repr

/-- `BtreeIter`: a leaf cursor.  It holds the engine iterator record —
btree id, current position, forwarded flag bits — together with the
transaction-level state it reads through (`keys`, `restarted`,
`conflictPending`). -/
structure BtreeIter where
  keys : List BkeySC
  restarted : Bool
  conflictPending : Bool
  btreeId : Nat
  pos : Bpos
  flags : Nat
deriving DecidableEq, Repr

/-- `BtreeIter::new`: registers an iterator bound to the transaction via
`bch2_trans_iter_init_outlined(trans.raw, iter, btree, pos, flags.bits as u32)`.
It is total — no flag validation is performed — and forwards the flag bits
unchanged (u16 widened to u32). -/
def BtreeIter.new (trans : BtreeTrans) (btree : Nat) (pos : Bpos)
    (flags : BtreeIterFlags) : BtreeIter :=
  { keys := trans.keys
    restarted := trans.restarted
    conflictPending := trans.conflictPending
    btreeId := btree
    pos := pos
    flags := flags.bits }

/-- Modelled from the spec: the engine primitive `bch2_btree_iter_peek_upto`
(C side of the repository, not under src/) returns the next key at or after
the cursor's current position and at or before `endPos` (inclusive), moving
the cursor there; a null pointer when no key is in range; and an error
pointer carrying the restart code when the transaction is already restarted
or a conflict is detected during the read (which sets the restart flag). -/
def bch2_btree_iter_peek_upto (st : BtreeIter) (endPos : Bpos) :
    EnginePtr BkeySC × BtreeIter :=
  if st.restarted then (.err .transaction_restart, st)
  else if st.conflictPending then
    (.err .transaction_restart, { st with restarted := true, conflictPending := false })
  else
    match st.keys.find? (fun k =>
        decide (Bpos.le st.pos k.p) && decide (Bpos.le k.p endPos)) with
    | some k => (.valid k, { st with pos := k.p })
    | none => (.null, st)

/-- Modelled from the spec: `bch2_btree_iter_peek_and_restart_outlined`
(C side, not under src/) — like a peek to the end of the keyspace, but on a
detected conflict it transparently restarts the transaction and re-validates
the cursor position internally before returning. -/
def bch2_btree_iter_peek_and_restart_outlined (st : BtreeIter) :
    EnginePtr BkeySC × BtreeIter :=
  bch2_btree_iter_peek_upto
    { st with restarted := false, conflictPending := false } SPOS_MAX

/-- Modelled from the spec: `bch2_btree_iter_advance` (C side, not under
src/) moves the cursor past its current position to the successor position,
returning false (without moving) only at the end-of-keyspace sentinel.  It
only repositions the cursor over already-fetched state: it does not read the
tree and cannot fail. -/
def bch2_btree_iter_advance (st : BtreeIter) : Bool × BtreeIter :=
  if st.pos = SPOS_MAX then (false, st)
  else (true, { st with pos := st.pos.successor })

/-- `BtreeIter::peek_upto`: calls the engine peek and maps the returned
pointer through `errptr_to_result_c` and the null check. -/
def BtreeIter.peek_upto (st : BtreeIter) (endPos : Bpos) :
    Except bch_errcode (Option BkeySC) × BtreeIter :=
  let r := bch2_btree_iter_peek_upto st endPos
  (toKeyViewResult r.1, r.2)

/-- `BtreeIter::peek`: `self.peek_upto(SPOS_MAX)`. -/
def BtreeIter.peek (st : BtreeIter) : Except bch_errcode (Option BkeySC) × BtreeIter :=
  BtreeIter.peek_upto st SPOS_MAX

/-- `BtreeIter::peek_and_restart`: calls the engine peek-and-restart and maps
the returned pointer exactly as `peek_upto` does. -/
def BtreeIter.peek_and_restart (st : BtreeIter) :
    Except bch_errcode (Option BkeySC) × BtreeIter :=
  let r := bch2_btree_iter_peek_and_restart_outlined st
  (toKeyViewResult r.1, r.2)

/-- `BtreeIter::advance`: calls `bch2_btree_iter_advance` and discards its
boolean result; the wrapper returns nothing. -/
def BtreeIter.advance (st : BtreeIter) : BtreeIter :=
  (bch2_btree_iter_advance st).2

/-- `BtreeNodeIter`: a node cursor.  It holds the engine iterator record —
btree id, position, locks_want, depth, forwarded flag bits — and the
engine-side walk state: the ordered list of nodes at the chosen depth and
the index of the node currently under the cursor, plus the transaction-level
restart state. -/
structure BtreeNodeIter where
  nodes : List BtreeNode
  idx : Nat
  restarted : Bool
  conflictPending : Bool
  btreeId : Nat
  pos : Bpos
  locks_want : Nat
  depth : Nat
  flags : Nat
deriving DecidableEq, Repr

/-- `BtreeNodeIter::new`: registers a node iterator via
`bch2_trans_node_iter_init(trans.raw, iter, btree, pos, locks_want, depth,
flags.bits as u32)`.  Total, no flag validation, flag bits forwarded
unchanged. -/
def BtreeNodeIter.new (trans : BtreeTrans) (btree : Nat) (pos : Bpos)
    (locks_want : Nat) (depth : Nat) (flags : BtreeIterFlags) : BtreeNodeIter :=
  { nodes := trans.nodes
    idx := 0
    restarted := trans.restarted
    conflictPending := trans.conflictPending
    btreeId := btree
    pos := pos
    locks_want := locks_want
    depth := depth
    flags := flags.bits }

/-- Modelled from the spec: `bch2_btree_iter_peek_node` (C side, not under
src/) returns a pointer to the node currently under the cursor at the walk
depth, null past the last node, or an error pointer carrying the restart
code when the transaction is restarted or a conflict is detected. -/
def bch2_btree_iter_peek_node (st : BtreeNodeIter) :
    EnginePtr BtreeNode × BtreeNodeIter :=
  if st.restarted then (.err .transaction_restart, st)
  else if st.conflictPending then
    (.err .transaction_restart, { st with restarted := true, conflictPending := false })
  else
    match st.nodes.get? st.idx with
    | some b => (.valid b, st)
    | none => (.null, st)

/-- Modelled from the spec: `bch2_btree_iter_peek_node_and_restart` (C side,
not under src/) — like `bch2_btree_iter_peek_node`, but on a detected
conflict it restarts the transaction and re-validates internally. -/
def bch2_btree_iter_peek_node_and_restart (st : BtreeNodeIter) :
    EnginePtr BtreeNode × BtreeNodeIter :=
  bch2_btree_iter_peek_node { st with restarted := false, conflictPending := false }

/-- Modelled from the spec: `bch2_btree_iter_next_node` (C side, not under
src/) moves the cursor to the next node at the same depth and returns a
pointer to it (null past the last node), or an error pointer carrying the
restart code when the transaction is restarted or a conflict is detected. -/
def bch2_btree_iter_next_node (st : BtreeNodeIter) :
    EnginePtr BtreeNode × BtreeNodeIter :=
  if st.restarted then (.err .transaction_restart, st)
  else if st.conflictPending then
    (.err .transaction_restart, { st with restarted := true, conflictPending := false })
  else
    let st' := { st with idx := st.idx + 1 }
    match st'.nodes.get? st'.idx with
    | some b => (.valid b, st')
    | none => (.null, st')

/-- `BtreeNodeIter::peek`: calls the engine node peek and maps the returned
pointer through `errptr_to_result_c` and the null check. -/
def BtreeNodeIter.peek (st : BtreeNodeIter) :
    Except bch_errcode (Option BtreeNode) × BtreeNodeIter :=
  let r := bch2_btree_iter_peek_node st
  (toNodeViewResult r.1, r.2)

/-- `BtreeNodeIter::peek_and_restart`: calls the engine conflict-absorbing
node peek and maps the returned pointer the same way. -/
def BtreeNodeIter.peek_and_restart (st : BtreeNodeIter) :
    Except bch_errcode (Option BtreeNode) × BtreeNodeIter :=
  let r := bch2_btree_iter_peek_node_and_restart st
  (toNodeViewResult r.1, r.2)

/-- `BtreeNodeIter::advance`: calls `bch2_btree_iter_next_node` and discards
its entire result (node pointer or error); the wrapper returns nothing. -/
def BtreeNodeIter.advance (st : BtreeNodeIter) : BtreeNodeIter :=
  (bch2_btree_iter_next_node st).2

/-- `BtreeNodeIter::next`: calls `bch2_btree_iter_next_node` and maps the
returned pointer through `errptr_to_result_c` and the null check. -/
def BtreeNodeIter.next (st : BtreeNodeIter) :
    Except bch_errcode (Option BtreeNode) × BtreeNodeIter :=
  let r := bch2_btree_iter_next_node st
  (toNodeViewResult r.1, r.2)

/-- A caller's loop over a leaf cursor: one `peek_upto` per element of `ends`
(the range bound passed to that call), each successful peek followed by
`advance()`.  Collects the keys returned; stops at the first engine error. -/
def runPeekUptos : List Bpos → BtreeIter → List BkeySC
  | [], _ => []
  | e :: es, st =>
    match BtreeIter.peek_upto st e with
    | (Except.ok (some k), st') => k :: runPeekUptos es (BtreeIter.advance st')
    | (Except.ok none, st') => runPeekUptos es (BtreeIter.advance st')
    | (Except.error _, _) => []

theorem Bpos.le_refl (a : Bpos) : Bpos.le a a := by
  unfold Bpos.le; omega

theorem Bpos.le_trans {a b c : Bpos} (h₁ : Bpos.le a b) (h₂ : Bpos.le b c) :
    Bpos.le a c := by
  unfold Bpos.le at *; omega

theorem Bpos.lt_of_lt_of_le {a b c : Bpos} (h₁ : Bpos.lt a b) (h₂ : Bpos.le b c) :
    Bpos.lt a c := by
  unfold Bpos.lt at *; unfold Bpos.le at h₂; omega

theorem Bpos.le_of_lt {a b : Bpos} (h : Bpos.lt a b) : Bpos.le a b := by
  unfold Bpos.lt at h; unfold Bpos.le; omega

theorem Bpos.le_spos_max {p : Bpos} (h : validBpos p) : Bpos.le p SPOS_MAX := by
  unfold validBpos at h
  unfold Bpos.le SPOS_MAX U64_MAX U32_MAX at *
  dsimp only at *
  omega

theorem Bpos.le_successor (p : Bpos) : Bpos.le p p.successor := by
  unfold Bpos.successor
  split_ifs <;> unfold Bpos.le <;> (try dsimp only) <;> omega

theorem Bpos.lt_successor {p : Bpos} (hv : validBpos p) (hne : p ≠ SPOS_MAX) :
    Bpos.lt p p.successor := by
  unfold validBpos at hv
  have hne' : p.inode ≠ U64_MAX ∨ p.offset ≠ U64_MAX ∨ p.snapshot ≠ U32_MAX := by
    by_contra hc
    push_neg at hc
    exact hne (by cases p; simp_all [SPOS_MAX])
  unfold Bpos.successor
  split_ifs <;> unfold Bpos.lt <;> (try dsimp only) <;> omega

theorem advance_keys (st : BtreeIter) : (BtreeIter.advance st).keys = st.keys := by
  unfold BtreeIter.advance bch2_btree_iter_advance
  split_ifs <;> rfl

theorem advance_pos_le (st : BtreeIter) : Bpos.le st.pos (BtreeIter.advance st).pos := by
  unfold BtreeIter.advance bch2_btree_iter_advance
  split_ifs with h
  · exact Bpos.le_refl _
  · exact Bpos.le_successor _

theorem advance_pos_of_ne {st : BtreeIter} (h : st.pos ≠ SPOS_MAX) :
    (BtreeIter.advance st).pos = st.pos.successor := by
  unfold BtreeIter.advance bch2_btree_iter_advance
  simp [h]

theorem peek_upto_ok_some {st : BtreeIter} {endPos : Bpos} {k : BkeySC} {st' : BtreeIter}
    (h : BtreeIter.peek_upto st endPos = (Except.ok (some k), st')) :
    Bpos.le st.pos k.p ∧ Bpos.le k.p endPos ∧ k ∈ st.keys ∧
      st' = { st with pos := k.p } := by
  unfold BtreeIter.peek_upto bch2_btree_iter_peek_upto at h
  split_ifs at h
  · simp [toKeyViewResult, errptr_to_result_c, Except.map] at h
  · simp [toKeyViewResult, errptr_to_result_c, Except.map] at h
  · rcases hf : st.keys.find? (fun kk =>
        decide (Bpos.le st.pos kk.p) && decide (Bpos.le kk.p endPos)) with _ | a
    · rw [hf] at h
      simp [toKeyViewResult, errptr_to_result_c, Except.map] at h
    · rw [hf] at h
      simp only [toKeyViewResult, errptr_to_result_c, Except.map, Prod.mk.injEq,
        Except.ok.injEq, Option.some.injEq] at h
      obtain ⟨rfl, rfl⟩ := h
      have hp := List.find?_some hf
      simp only [Bool.and_eq_true, decide_eq_true_eq] at hp
      exact ⟨hp.1, hp.2, List.mem_of_find?_eq_some hf, rfl⟩

theorem peek_upto_ok_none {st : BtreeIter} {endPos : Bpos} {st' : BtreeIter}
    (h : BtreeIter.peek_upto st endPos = (Except.ok none, st')) : st' = st := by
  unfold BtreeIter.peek_upto bch2_btree_iter_peek_upto at h
  split_ifs at h
  · simp [toKeyViewResult, errptr_to_result_c, Except.map] at h
  · simp [toKeyViewResult, errptr_to_result_c, Except.map] at h
  · rcases hf : st.keys.find? (fun kk =>
        decide (Bpos.le st.pos kk.p) && decide (Bpos.le kk.p endPos)) with _ | a
    · rw [hf] at h
      simp only [toKeyViewResult, errptr_to_result_c, Except.map, Prod.mk.injEq] at h
      exact h.2.symm
    · rw [hf] at h
      simp [toKeyViewResult, errptr_to_result_c, Except.map] at h

theorem runPeekUptos_le_pos :
    ∀ (es : List Bpos) (st : BtreeIter), ∀ k ∈ runPeekUptos es st, Bpos.le st.pos k.p := by
  intro es
  induction es with
  | nil => intro st k hk; simp [runPeekUptos] at hk
  | cons e es ih =>
    intro st k hk
    rw [runPeekUptos] at hk
    rcases hp : BtreeIter.peek_upto st e with ⟨r, st'⟩
    rw [hp] at hk
    match r with
    | Except.ok (some k₀) =>
      obtain ⟨h₁, _, _, hst'⟩ := peek_upto_ok_some hp
      simp only [List.mem_cons] at hk
      rcases hk with rfl | hk
      · exact h₁
      · have h₂ := ih (BtreeIter.advance st') k hk
        have h₃ : Bpos.le st'.pos (BtreeIter.advance st').pos := advance_pos_le st'
        have h₄ : st'.pos = k₀.p := by rw [hst']
        exact Bpos.le_trans h₁ (Bpos.le_trans (h₄ ▸ h₃) h₂)
    | Except.ok none =>
      have hst' := peek_upto_ok_none hp
      subst hst'
      have h₂ := ih (BtreeIter.advance st') k hk
      exact Bpos.le_trans (advance_pos_le st') h₂
    | Except.error e₀ =>
      simp at hk

theorem runPeekUptos_chain_lt :
    ∀ (es : List Bpos) (st : BtreeIter),
      (∀ k ∈ st.keys, validBpos k.p ∧ k.p ≠ SPOS_MAX) →
      List.Chain' (fun a b : BkeySC => Bpos.lt a.p b.p) (runPeekUptos es st) := by
  intro es
  induction es with
  | nil => intro st _; simp [runPeekUptos]
  | cons e es ih =>
    intro st hkeys
    rw [runPeekUptos]
    rcases hp : BtreeIter.peek_upto st e with ⟨r, st'⟩
    match r with
    | Except.ok (some k₀) =>
      obtain ⟨h₁, _, hmem, hst'⟩ := peek_upto_ok_some hp
      have hkeys' : (BtreeIter.advance st').keys = st.keys := by
        rw [advance_keys, hst']
      have hchain : List.Chain' (fun a b : BkeySC => Bpos.lt a.p b.p)
          (runPeekUptos es (BtreeIter.advance st')) := by
        apply ih
        rw [hkeys']
        exact hkeys
      rw [List.chain'_cons']
      refine ⟨?_, hchain⟩
      intro y hy
      have hymem : y ∈ runPeekUptos es (BtreeIter.advance st') :=
        List.mem_of_mem_head? hy
      have hyle := runPeekUptos_le_pos es (BtreeIter.advance st') y hymem
      obtain ⟨hv, hne⟩ := hkeys k₀ hmem
      have hppos : st'.pos = k₀.p := by rw [hst']
      have hadv : (BtreeIter.advance st').pos = k₀.p.successor := by
        rw [@advance_pos_of_ne st' (by rw [hppos]; exact hne), hppos]
      rw [hadv] at hyle
      exact Bpos.lt_of_lt_of_le (Bpos.lt_successor hv hne) hyle
    | Except.ok none =>
      have hst' := peek_upto_ok_none hp
      subst hst'
      apply ih
      rw [advance_keys]
      exact hkeys
    | Except.error e₀ =>
      simp

theorem advance_restarted (st : BtreeIter) :
    (BtreeIter.advance st).restarted = st.restarted := by
  unfold BtreeIter.advance bch2_btree_iter_advance
  split_ifs <;> rfl

theorem peek_restarted_error {st : BtreeIter} (h : st.restarted = true) :
    (BtreeIter.peek st).1 = Except.error bch_errcode.transaction_restart := by
  unfold BtreeIter.peek BtreeIter.peek_upto bch2_btree_iter_peek_upto
  simp [h, toKeyViewResult, errptr_to_result_c, Except.map]

theorem peek_error_sets_restarted {st st' : BtreeIter} {e : bch_errcode}
    (h : BtreeIter.peek st = (Except.error e, st')) : st'.restarted = true := by
  unfold BtreeIter.peek BtreeIter.peek_upto bch2_btree_iter_peek_upto at h
  split_ifs at h with h₁ h₂
  · simp only [toKeyViewResult, errptr_to_result_c, Except.map, Prod.mk.injEq] at h
    rw [← h.2]
    exact h₁
  · simp only [toKeyViewResult, errptr_to_result_c, Except.map, Prod.mk.injEq] at h
    rw [← h.2]
  · rcases hf : st.keys.find? (fun kk =>
        decide (Bpos.le st.pos kk.p) && decide (Bpos.le kk.p SPOS_MAX)) with _ | a
    · rw [hf] at h
      simp [toKeyViewResult, errptr_to_result_c, Except.map] at h
    · rw [hf] at h
      simp [toKeyViewResult, errptr_to_result_c, Except.map] at h

/-- C1: for every leaf cursor state, `peek()` returns exactly the same
result (value and cursor state) as `peek_upto(SPOS_MAX)`, and `SPOS_MAX` is
the engine's sentinel maximum position: every valid position is at or below
it. -/
theorem peek_refines_peek_upto_spos_max :
    (∀ st : BtreeIter, BtreeIter.peek st = BtreeIter.peek_upto st SPOS_MAX) ∧
    (∀ p : Bpos, validBpos p → Bpos.le p SPOS_MAX) :=
  ⟨fun _ => rfl, fun _ h => Bpos.le_spos_max h⟩

/-- C1 witness: the equality and the sentinel bound at concrete inputs. -/
theorem peek_refines_peek_upto_spos_max_witness :
    BtreeIter.peek ⟨[⟨⟨1, 2, 3⟩, 7⟩], false, false, 0, ⟨0, 0, 0⟩, 0⟩ =
      BtreeIter.peek_upto ⟨[⟨⟨1, 2, 3⟩, 7⟩], false, false, 0, ⟨0, 0, 0⟩, 0⟩ SPOS_MAX ∧
    Bpos.le ⟨1, 2, 3⟩ SPOS_MAX :=
  ⟨peek_refines_peek_upto_spos_max.1 _,
   peek_refines_peek_upto_spos_max.2 ⟨1, 2, 3⟩ (by decide)⟩

/-- C2: whenever `peek_upto(end)` returns a key/value view, the returned
key's position is at or after the cursor's current position and at or
before `end` (inclusive); `peek_upto` never returns a key whose position is
greater than `end`. -/
theorem peek_upto_key_within_end {st : BtreeIter} {endPos : Bpos} {k : BkeySC}
    {st' : BtreeIter}
    (h : BtreeIter.peek_upto st endPos = (Except.ok (some k), st')) :
    Bpos.le st.pos k.p ∧ Bpos.le k.p endPos :=
  ⟨(peek_upto_ok_some h).1, (peek_upto_ok_some h).2.1⟩

/-- C2 witness: a concrete peek that returns a key, with both bounds. -/
theorem peek_upto_key_within_end_witness :
    BtreeIter.peek_upto ⟨[⟨⟨1, 2, 3⟩, 7⟩], false, false, 0, ⟨0, 0, 0⟩, 0⟩ ⟨1, 2, 3⟩ =
      (Except.ok (some ⟨⟨1, 2, 3⟩, 7⟩),
       ⟨[⟨⟨1, 2, 3⟩, 7⟩], false, false, 0, ⟨1, 2, 3⟩, 0⟩) ∧
    Bpos.le (⟨0, 0, 0⟩ : Bpos) ⟨1, 2, 3⟩ ∧ Bpos.le (⟨1, 2, 3⟩ : Bpos) ⟨1, 2, 3⟩ :=
  ⟨rfl,
   @peek_upto_key_within_end ⟨[⟨⟨1, 2, 3⟩, 7⟩], false, false, 0, ⟨0, 0, 0⟩, 0⟩
     ⟨1, 2, 3⟩ ⟨⟨1, 2, 3⟩, 7⟩ ⟨[⟨⟨1, 2, 3⟩, 7⟩], false, false, 0, ⟨1, 2, 3⟩, 0⟩ rfl⟩

/-- C3: across `peek_upto`, `peek`, `peek_and_restart` on leaf cursors and
`peek`, `peek_and_restart` on node cursors, the "nothing matched" outcome is
the successful empty result `Ok(None)`, never an error; engine error
pointers are surfaced unchanged as codes of the closed error type
`bch_errcode`; and the three outcomes — success, not-found, and each named
error condition — are pairwise distinct, so the layer never collapses them
into one kind. -/
theorem not_found_is_empty_errors_closed :
    (∀ kv : BkeySC, toKeyViewResult (.valid kv) = .ok (some kv)) ∧
    toKeyViewResult .null = .ok none ∧
    (∀ e, toKeyViewResult (.err e) = .error e) ∧
    (∀ b : BtreeNode, toNodeViewResult (.valid b) = .ok (some b)) ∧
    toNodeViewResult .null = .ok none ∧
    (∀ e, toNodeViewResult (.err e) = .error e) ∧
    (∀ st endPos, BtreeIter.peek_upto st endPos =
      (toKeyViewResult (bch2_btree_iter_peek_upto st endPos).1,
       (bch2_btree_iter_peek_upto st endPos).2)) ∧
    (∀ st, BtreeIter.peek st =
      (toKeyViewResult (bch2_btree_iter_peek_upto st SPOS_MAX).1,
       (bch2_btree_iter_peek_upto st SPOS_MAX).2)) ∧
    (∀ st, BtreeIter.peek_and_restart st =
      (toKeyViewResult (bch2_btree_iter_peek_and_restart_outlined st).1,
       (bch2_btree_iter_peek_and_restart_outlined st).2)) ∧
    (∀ st, BtreeNodeIter.peek st =
      (toNodeViewResult (bch2_btree_iter_peek_node st).1,
       (bch2_btree_iter_peek_node st).2)) ∧
    (∀ st, BtreeNodeIter.peek_and_restart st =
      (toNodeViewResult (bch2_btree_iter_peek_node_and_restart st).1,
       (bch2_btree_iter_peek_node_and_restart st).2)) ∧
    (∀ (kv? : Option BkeySC) (e : bch_errcode),
      (Except.ok kv? : Except bch_errcode (Option BkeySC)) ≠ Except.error e) ∧
    (∀ n : Nat, bch_errcode.transaction_restart ≠ bch_errcode.fatal n) ∧
    (∀ n : Nat, bch_errcode.resource_exhaustion ≠ bch_errcode.fatal n) ∧
    bch_errcode.transaction_restart ≠ bch_errcode.resource_exhaustion :=
  ⟨fun _ => rfl, rfl, fun _ => rfl, fun _ => rfl, rfl, fun _ => rfl,
   fun _ _ => rfl, fun _ => rfl, fun _ => rfl, fun _ => rfl, fun _ => rfl,
   fun _ _ h => Except.noConfusion h,
   fun _ h => bch_errcode.noConfusion h,
   fun _ h => bch_errcode.noConfusion h,
   fun h => bch_errcode.noConfusion h⟩

/-- C3 witness: the result-mapping distinctions at concrete inputs. -/
theorem not_found_is_empty_errors_closed_witness :
    toKeyViewResult .null = .ok none ∧
    toKeyViewResult (.err .transaction_restart) = .error .transaction_restart ∧
    (Except.ok (none : Option BkeySC) : Except bch_errcode (Option BkeySC)) ≠
      Except.error .transaction_restart ∧
    bch_errcode.transaction_restart ≠ bch_errcode.fatal 0 := by
  obtain ⟨h₁, h₂, h₃, h₄, h₅, h₆, h₇, h₈, h₉, h₁₀, h₁₁, h₁₂, h₁₃, h₁₄, h₁₅⟩ :=
    not_found_is_empty_errors_closed
  exact ⟨h₂, h₃ _, h₁₂ none _, h₁₃ 0⟩

/-- C4: for every sequence of alternating `peek_upto`/`advance` calls on a
leaf cursor whose tree holds keys at valid non-sentinel positions (the key
set is fixed over the run — no concurrent writers), the positions of the
successively returned keys are strictly increasing when the IS_EXTENTS flag
bit is clear (point-key mode); in extent mode they are non-decreasing. -/
theorem returned_keys_monotone {es : List Bpos} {st : BtreeIter}
    (hkeys : ∀ k ∈ st.keys, validBpos k.p ∧ k.p ≠ SPOS_MAX) :
    (st.flags.testBit 4 = false →
      List.Chain' (fun a b : BkeySC => Bpos.lt a.p b.p) (runPeekUptos es st)) ∧
    (st.flags.testBit 4 = true →
      List.Chain' (fun a b : BkeySC => Bpos.le a.p b.p) (runPeekUptos es st)) := by
  have h := runPeekUptos_chain_lt es st hkeys
  exact ⟨fun _ => h, fun _ => h.imp (fun _ _ hab => Bpos.le_of_lt hab)⟩

/-- C4 witness: a concrete two-peek run returning strictly increasing keys. -/
theorem returned_keys_monotone_witness :
    (∀ k ∈ ([⟨⟨1, 0, 0⟩, 10⟩, ⟨⟨2, 0, 0⟩, 20⟩] : List BkeySC),
        validBpos k.p ∧ k.p ≠ SPOS_MAX) ∧
    List.Chain' (fun a b : BkeySC => Bpos.lt a.p b.p)
      (runPeekUptos [SPOS_MAX, SPOS_MAX]
        ⟨[⟨⟨1, 0, 0⟩, 10⟩, ⟨⟨2, 0, 0⟩, 20⟩], false, false, 0, ⟨0, 0, 0⟩, 0⟩) :=
  ⟨by decide,
   (@returned_keys_monotone [SPOS_MAX, SPOS_MAX]
      ⟨[⟨⟨1, 0, 0⟩, 10⟩, ⟨⟨2, 0, 0⟩, 20⟩], false, false, 0, ⟨0, 0, 0⟩, 0⟩
      (by decide)).1 (by decide)⟩

/-- C5: on every node-cursor state, `next()` performs the same move as
`advance()` — it is `advance()` fused with a peek of the resulting node:
its returned value is what peeking after the advance returns, and both
leave the cursor in exactly the same state. -/
theorem next_is_advance_fused_with_peek :
    ∀ st : BtreeNodeIter,
      BtreeNodeIter.next st =
        ((BtreeNodeIter.peek (BtreeNodeIter.advance st)).1,
         BtreeNodeIter.advance st) := by
  intro st
  rcases st with ⟨nodes, idx, r, c, bid, pos, lw, d, fl⟩
  unfold BtreeNodeIter.next BtreeNodeIter.advance BtreeNodeIter.peek
    bch2_btree_iter_next_node bch2_btree_iter_peek_node
  cases r
  · cases c
    · rcases hg : nodes[idx + 1]? with _ | b <;> simp [hg]
    · simp
  · simp

/-- C6 counterexample: constructing a leaf cursor with `CACHED_NOFILL` set
while `CACHED` is clear does not fail: `BtreeIter::new` is total and forwards
exactly those flag bits to the engine, so this combination is not rejected at
construction. -/
theorem new_accepts_cached_nofill_without_cached :
    (BtreeIter.new ⟨[], [], false, false⟩ 0 ⟨0, 0, 0⟩
        BtreeIterFlags.CACHED_NOFILL).flags = BtreeIterFlags.CACHED_NOFILL.bits ∧
    BtreeIterFlags.CACHED_NOFILL.bits &&& BtreeIterFlags.CACHED.bits = 0 :=
  ⟨rfl, by decide⟩

/-- C6 amended: cursor construction performs no flag validation: both
`BtreeIter::new` and `BtreeNodeIter::new` are total (they cannot fail) and
forward the caller's flag bits unchanged to the engine, whatever combination
— including `CACHED_NOFILL` without `CACHED` — is set. -/
theorem new_forwards_flags_unvalidated :
    (∀ (tr : BtreeTrans) (b : Nat) (p : Bpos) (f : BtreeIterFlags),
      (BtreeIter.new tr b p f).flags = f.bits) ∧
    (∀ (tr : BtreeTrans) (b : Nat) (p : Bpos) (lw d : Nat) (f : BtreeIterFlags),
      (BtreeNodeIter.new tr b p lw d f).flags = f.bits) :=
  ⟨fun _ _ _ _ => rfl, fun _ _ _ _ _ _ => rfl⟩

/-- C7 counterexample: in the state below, a peek has just returned the
Conflict error, yet the subsequent bare `advance()` does not fail with any
error: the wrapper's `advance` has no error channel — the engine advance
succeeds (returns `true`) and the wrapper discards even that boolean — so
"a bare `advance()` after Conflicted fails fast with a distinguishable
error" is false on this code. -/
theorem advance_after_conflict_reports_no_error :
    BtreeIter.peek ⟨[⟨⟨1, 1, 1⟩, 7⟩], false, true, 0, ⟨0, 0, 0⟩, 0⟩ =
      (Except.error .transaction_restart,
       ⟨[⟨⟨1, 1, 1⟩, 7⟩], true, false, 0, ⟨0, 0, 0⟩, 0⟩) ∧
    bch2_btree_iter_advance ⟨[⟨⟨1, 1, 1⟩, 7⟩], true, false, 0, ⟨0, 0, 0⟩, 0⟩ =
      (true, ⟨[⟨⟨1, 1, 1⟩, 7⟩], true, false, 0, ⟨0, 0, 1⟩, 0⟩) :=
  ⟨rfl, by decide⟩

/-- C7 amended: after a leaf cursor's peek returns the Conflict error, a
subsequent bare `peek()` without an intervening restart fails fast with the
distinguishable conflict error and returns no data; a bare `advance()`
returns nothing (it has no error channel and cannot fail), but iteration
never silently resumes: a peek after the advance still fails with the
conflict error, so no data is ever returned from the undefined tree
position. -/
theorem peek_after_conflict_fails_fast {st st' : BtreeIter} {e : bch_errcode}
    (h : BtreeIter.peek st = (Except.error e, st')) :
    (BtreeIter.peek st').1 = Except.error bch_errcode.transaction_restart ∧
    (BtreeIter.peek (BtreeIter.advance st')).1 =
      Except.error bch_errcode.transaction_restart := by
  have hr : st'.restarted = true := peek_error_sets_restarted h
  refine ⟨peek_restarted_error hr, peek_restarted_error ?_⟩
  rw [advance_restarted]
  exact hr

/-- C7 amended witness: the fail-fast behavior at a concrete conflicted
cursor. -/
theorem peek_after_conflict_fails_fast_witness :
    BtreeIter.peek ⟨[], false, true, 0, ⟨0, 0, 0⟩, 0⟩ =
      (Except.error .transaction_restart, ⟨[], true, false, 0, ⟨0, 0, 0⟩, 0⟩) ∧
    (BtreeIter.peek ⟨[], true, false, 0, ⟨0, 0, 0⟩, 0⟩).1 =
      Except.error bch_errcode.transaction_restart ∧
    (BtreeIter.peek (BtreeIter.advance ⟨[], true, false, 0, ⟨0, 0, 0⟩, 0⟩)).1 =
      Except.error bch_errcode.transaction_restart :=
  ⟨rfl,
   @peek_after_conflict_fails_fast ⟨[], false, true, 0, ⟨0, 0, 0⟩, 0⟩
     ⟨[], true, false, 0, ⟨0, 0, 0⟩, 0⟩ bch_errcode.transaction_restart rfl⟩

/-- C10: `BtreeNodeIter::advance` invokes the same engine next-node
operation as `next()` but discards its entire result, keeping only the
engine's post-state, while `next()` surfaces the engine's pointer (node or
error code) through the result mapping; in particular, when the engine
reports a conflict during the move, `next()` returns the restart error but
`advance()` returns only the new cursor state — the conflict is never
reported to the caller. -/
theorem advance_discards_next_node_result (st : BtreeNodeIter) :
    BtreeNodeIter.advance st = (bch2_btree_iter_next_node st).2 ∧
    BtreeNodeIter.next st =
      (toNodeViewResult (bch2_btree_iter_next_node st).1,
       (bch2_btree_iter_next_node st).2) ∧
    (st.restarted = false → st.conflictPending = true →
      (BtreeNodeIter.next st).1 = Except.error bch_errcode.transaction_restart ∧
      BtreeNodeIter.advance st =
        { st with restarted := true, conflictPending := false }) := by
  refine ⟨rfl, rfl, fun h₁ h₂ => ?_⟩
  unfold BtreeNodeIter.next BtreeNodeIter.advance bch2_btree_iter_next_node
  simp [h₁, h₂, toNodeViewResult, errptr_to_result_c, Except.map]

/-- C10 witness: a concrete node cursor with a pending conflict — `next`
reports the restart error, `advance` returns only the marked state. -/
theorem advance_discards_next_node_result_witness :
    BtreeNodeIter.advance ⟨[⟨5⟩], 0, false, true, 0, ⟨0, 0, 0⟩, 0, 1, 0⟩ =
      (bch2_btree_iter_next_node ⟨[⟨5⟩], 0, false, true, 0, ⟨0, 0, 0⟩, 0, 1, 0⟩).2 ∧
    (BtreeNodeIter.next ⟨[⟨5⟩], 0, false, true, 0, ⟨0, 0, 0⟩, 0, 1, 0⟩).1 =
      Except.error bch_errcode.transaction_restart ∧
    BtreeNodeIter.advance ⟨[⟨5⟩], 0, false, true, 0, ⟨0, 0, 0⟩, 0, 1, 0⟩ =
      ⟨[⟨5⟩], 0, true, false, 0, ⟨0, 0, 0⟩, 0, 1, 0⟩ :=
  ⟨(advance_discards_next_node_result _).1,
   ((advance_discards_next_node_result _).2.2 rfl rfl).1,
   ((advance_discards_next_node_result _).2.2 rfl rfl).2⟩

end BchBtree
